import Mathlib

/-!
Verification of the Kosil quick-commerce order pipeline core: the order-status
state machine, the inventory reservation manager, the commission rate resolver,
the commission calculator, the ledger/settlement engine and the admin fund
transfer. Each definition below is a shallow embedding of the corresponding
TypeScript function of the repository; monetary values are modelled as
rationals, document ids as naturals. Database lookups are modelled as total
functions returning an Option, persisted collections as lists in insertion
order, and the cached payee balance as a function from payee id to amount.
-/

namespace Kosil

/-! ## Order status state machine (orderService: validateStatusTransition) -/

/-- Result of `validateStatusTransition`: a valid flag, and on rejection a
message that carries the allowed next states. -/
structure TransitionResult where
  valid : Bool
  message : Option String
deriving DecidableEq, Repr

/-- The `validTransitions` record from the source, embedded as a total function:
a lookup of a key that is not in the record yields `undefined`, and the source
applies the default `validTransitions[currentStatus] || []`. -/
def validTransitions (currentStatus : String) : List String :=
  if currentStatus = "Received" then ["Pending", "Cancelled", "Rejected"]
  else if currentStatus = "Pending" then ["Processed", "Cancelled", "Rejected"]
  else if currentStatus = "Processed" then ["Shipped", "Cancelled", "Rejected"]
  else if currentStatus = "Shipped" then ["Out for Delivery", "Cancelled", "Rejected"]
  else if currentStatus = "Out for Delivery" then ["Delivered", "Cancelled", "Rejected"]
  else if currentStatus = "Delivered" then ["Returned"]
  else if currentStatus = "Cancelled" then []
  else if currentStatus = "Rejected" then []
  else if currentStatus = "Returned" then []
  else []

/-- Source operation `validateStatusTransition(currentStatus, newStatus)`: reject
with a message listing the allowed statuses when `newStatus` is not in the row
of `currentStatus`, accept otherwise. -/
def validateStatusTransition (currentStatus newStatus : String) : TransitionResult :=
  let allowedStatuses := validTransitions currentStatus
  if !(allowedStatuses.contains newStatus) then
    { valid := false
      message := some ("Cannot transition from " ++ currentStatus ++ " to " ++ newStatus ++
        ". Valid transitions: " ++ String.intercalate ", " allowedStatuses) }
  else { valid := true, message := none }

/-- The transition table exactly as the specification words it, written as an
association list so that it is structurally independent of the source lookup. -/
def specTransitionTable : List (String × List String) :=
  [("Received", ["Pending", "Cancelled", "Rejected"]),
   ("Pending", ["Processed", "Cancelled", "Rejected"]),
   ("Processed", ["Shipped", "Cancelled", "Rejected"]),
   ("Shipped", ["Out for Delivery", "Cancelled", "Rejected"]),
   ("Out for Delivery", ["Delivered", "Cancelled", "Rejected"]),
   ("Delivered", ["Returned"]),
   ("Cancelled", []),
   ("Rejected", []),
   ("Returned", [])]

/-- Allowed next states for a current state, per the specification table; a
state outside the table allows nothing. -/
def specAllowed (current : String) : List String :=
  (specTransitionTable.lookup current).getD []

/-- The nine defined order statuses. -/
def definedStatuses : List String :=
  ["Received", "Pending", "Processed", "Shipped", "Out for Delivery",
   "Delivered", "Cancelled", "Rejected", "Returned"]

/-! ## Inventory reservation manager (orderService: reserveInventory / restoreInventory) -/

/-- The mutable fields of an Inventory document. -/
structure InventoryRec where
  currentStock : Int
  reservedStock : Int
  availableStock : Int
deriving DecidableEq, Repr

/-- One iteration of `reserveInventory` on the inventory record of one line
item: reservedStock += quantity, availableStock recomputed floored at 0. -/
def reserveItem (quantity : Nat) (inv : InventoryRec) : InventoryRec :=
  let reserved := inv.reservedStock + quantity
  { inv with
    reservedStock := reserved
    availableStock := max 0 (inv.currentStock - reserved) }

/-- One iteration of `restoreInventory` on the inventory record of one line
item: reservedStock lowered by the quantity floored at 0, availableStock set to
currentStock − reservedStock with no floor. -/
def restoreItem (quantity : Nat) (inv : InventoryRec) : InventoryRec :=
  let reserved := max 0 (inv.reservedStock - quantity)
  { inv with
    reservedStock := reserved
    availableStock := inv.currentStock - reserved }

/-! ## Commission rate resolution (commissionService: createPendingCommissions, levels 1–5) -/

/-- The fields of a Seller document used by the commission engine:
`commission` is the individually configured rate (`none` = undefined). -/
structure SellerRec where
  commission : Option ℚ

/-- The taxonomy references carried by a Product document. -/
structure ProductRec where
  subSubCategory : Option Nat
  subcategory : Option Nat
  category : Option Nat

/-- The database environment read by the commission engine. Lookups return
`none` when the document is missing; the category-rate maps also return `none`
when the `commissionRate` field of a found document is undefined. -/
structure Env where
  sellers : Nat → Option SellerRec
  products : Nat → Option ProductRec
  categoryRate : Nat → Option ℚ
  subCategoryRate : Nat → Option ℚ
  globalCommissionRate : Option ℚ

/-- One probe of the source condition
`doc && doc.commissionRate && doc.commissionRate > 0`: the rate when it is
present and strictly positive, otherwise 0 (the accumulator is left at 0 and
the resolver continues). -/
def levelRate : Option ℚ → ℚ
  | some v => if 0 < v then v else 0
  | none => 0

/-- The five-level rate resolution inlined in `createPendingCommissions`:
sub-subcategory, subcategory, category (each only probed when the product was
found), then the seller rate, then the global default from AppSettings with a
hard-coded fallback of 10. -/
def resolveSellerRate (env : Env) (productId : Nat) (seller : SellerRec) : ℚ :=
  let fromTaxonomy : ℚ :=
    match env.products productId with
    | none => 0
    | some product =>
      let r1 := levelRate (product.subSubCategory.bind env.categoryRate)
      let r2 := if r1 = 0 then levelRate (product.subcategory.bind env.subCategoryRate) else r1
      if r2 = 0 then levelRate (product.category.bind env.categoryRate) else r2
  let withSeller := if fromTaxonomy = 0 then levelRate seller.commission else fromTaxonomy
  if withSeller = 0 then env.globalCommissionRate.getD 10 else withSeller

/-- The priority-ordered rate sources of the claim, highest first. -/
def rateLevels (env : Env) (productId : Nat) (seller : SellerRec) : List (Option ℚ) :=
  [((env.products productId).bind (·.subSubCategory)).bind env.categoryRate,
   ((env.products productId).bind (·.subcategory)).bind env.subCategoryRate,
   ((env.products productId).bind (·.category)).bind env.categoryRate,
   seller.commission]

/-- The first strictly positive configured rate of a priority-ordered list. -/
def firstPositive : List (Option ℚ) → Option ℚ
  | [] => none
  | some r :: rest => if 0 < r then some r else firstPositive rest
  | none :: rest => firstPositive rest

/-- The resolver as the specification words it: probe the sources in priority
order and return the first strictly positive rate, else the global default. -/
def specResolveRate (levels : List (Option ℚ)) (globalDefault : ℚ) : ℚ :=
  (firstPositive levels).getD globalDefault

/-! ## Ledger / settlement engine (commissionService and the order service) -/

/-- Commission record status. -/
inductive CommStatus
  | Pending
  | Paid
  | Cancelled
deriving DecidableEq, Repr

/-- Commission / payee type. -/
inductive CommType
  | SELLER
  | DELIVERY_BOY
deriving DecidableEq, Repr

/-- Wallet transaction direction. -/
inductive TxnType
  | Credit
  | Debit
deriving DecidableEq, Repr

/-- A Commission document. The source stores the payee in a `seller` or a
`deliveryBoy` field selected by `type`; here a single `payee` field plays both
roles, disambiguated by `ctype`. `id` stands for the Mongo document id; it is
assigned from the collection size at creation, which keeps it unique because
records are only ever appended. -/
structure CommissionRec where
  id : Nat
  order : Nat
  orderItem : Nat
  payee : Nat
  ctype : CommType
  orderAmount : ℚ
  commissionRate : ℚ
  commissionAmount : ℚ
  status : CommStatus
deriving DecidableEq, Repr

/-- A WalletTransaction document (the fields the claims are about; the
description and unique reference string carry no money and are omitted). -/
structure WalletTxn where
  payee : Nat
  ptype : CommType
  amount : ℚ
  ttype : TxnType
  txnStatus : String
deriving DecidableEq, Repr

/-- The persisted state the ledger engine mutates: the Commission collection,
the WalletTransaction collection, and the cached payee balances. -/
structure LedgerState where
  commissions : List CommissionRec
  txns : List WalletTxn
  balance : Nat → ℚ

/-- Modelled from the spec: `creditWallet` of `walletManagementService`, which
is not among the provided sources. Per §4.4 the settlement appends a Credit
Wallet Transaction for the amount to the payee and the cached balance is
updated alongside the ledger entry. -/
def creditWallet (payee : Nat) (ptype : CommType) (amount : ℚ) (s : LedgerState) : LedgerState :=
  { s with
    txns := s.txns ++ [⟨payee, ptype, amount, TxnType.Credit, "Completed"⟩]
    balance := fun i => if i = payee then s.balance i + amount else s.balance i }

/-- Modelled from the spec: `debitWallet` of `walletManagementService`, the
offsetting counterpart of `creditWallet` used by the reversal path — appends a
Debit Wallet Transaction and lowers the cached balance. -/
def debitWallet (payee : Nat) (ptype : CommType) (amount : ℚ) (s : LedgerState) : LedgerState :=
  { s with
    txns := s.txns ++ [⟨payee, ptype, amount, TxnType.Debit, "Completed"⟩]
    balance := fun i => if i = payee then s.balance i - amount else s.balance i }

/-- An OrderItem document. -/
structure Item where
  id : Nat
  order : Nat
  seller : Nat
  product : Nat
  quantity : Nat
  total : ℚ
deriving DecidableEq, Repr

/-- The body of the per-item loop of `createPendingCommissions`: skip the item
when its seller is missing, otherwise resolve the rate, compute commission
amount and net earning, persist a commission record with status Paid and
credit the seller wallet with the net earning. -/
def processItem (env : Env) (s : LedgerState) (item : Item) : LedgerState :=
  match env.sellers item.seller with
  | none => s
  | some seller =>
    let commissionRate := resolveSellerRate env item.product seller
    let commissionAmount := item.total * commissionRate / 100
    let netEarning := item.total - commissionAmount
    let s1 := { s with commissions := s.commissions ++
      [{ id := s.commissions.length, order := item.order, orderItem := item.id,
         payee := item.seller, ctype := CommType.SELLER, orderAmount := item.total,
         commissionRate := commissionRate, commissionAmount := commissionAmount,
         status := CommStatus.Paid }] }
    creditWallet item.seller CommType.SELLER netEarning s1

/-- Source operation `createPendingCommissions(orderId)` of commissionService: exit as a no-op
when commission records already exist for the order, otherwise process every
line item of the order. -/
def createPendingCommissions (env : Env) (orderId : Nat) (items : List Item)
    (s : LedgerState) : LedgerState :=
  if 0 < (s.commissions.filter (fun c => c.order == orderId)).length then s
  else items.foldl (processItem env) s

/-- The seller aggregation map of the first pass of `createCommissions`,
keyed by seller id in insertion order; only the accumulated net earning is
consumed by the second pass. -/
def addEarning (acc : List (Nat × ℚ)) (sellerId : Nat) (netEarning : ℚ) : List (Nat × ℚ) :=
  if acc.any (fun p => p.1 == sellerId) then
    acc.map (fun p => if p.1 = sellerId then (p.1, p.2 + netEarning) else p)
  else acc ++ [(sellerId, netEarning)]

/-- Source operation `createCommissions(items)` of the order service, invoked by the
Delivered case of `processOrderStatusTransition`: the first pass creates one
commission record with status Pending per item using the seller individual
rate `seller.commission || 0` (no taxonomy lookup and no global-default
fallback) and aggregates net earnings by seller; the second pass adds each
aggregate to the seller balance and appends one Credit wallet transaction. No
check for already existing commission records is made. -/
def createCommissions (env : Env) (items : List Item) (s : LedgerState) : LedgerState :=
  let step := fun (p : LedgerState × List (Nat × ℚ)) (item : Item) =>
    match env.sellers item.seller with
    | none => p
    | some seller =>
      let commissionRate := seller.commission.getD 0
      let commissionAmount := item.total * commissionRate / 100
      let netEarning := item.total - commissionAmount
      ({ p.1 with commissions := p.1.commissions ++
        [{ id := p.1.commissions.length, order := item.order, orderItem := item.id,
           payee := item.seller, ctype := CommType.SELLER, orderAmount := item.total,
           commissionRate := commissionRate, commissionAmount := commissionAmount,
           status := CommStatus.Pending }] },
       addEarning p.2 item.seller netEarning)
  let firstPass := items.foldl step (s, [])
  firstPass.2.foldl (fun st p =>
    match env.sellers p.1 with
    | none => st
    | some _ => creditWallet p.1 CommType.SELLER p.2 st) firstPass.1

/-- One iteration of the `reverseCommissions` loop: a record with status Paid
is flipped to Cancelled (written back by document id) and the payee wallet is
debited by the commissionAmount of the record; any other record is left
untouched. -/
def reverseStep (st : LedgerState) (c : CommissionRec) : LedgerState :=
  if c.status = CommStatus.Paid then
    let cancel := fun (d : CommissionRec) =>
      if d.id = c.id then { d with status := CommStatus.Cancelled } else d
    let st1 := { st with commissions := st.commissions.map cancel }
    debitWallet c.payee c.ctype c.commissionAmount st1
  else st

/-- Source operation `reverseCommissions(orderId)` of commissionService: a successful no-op
when no commission records exist for the order, otherwise every Paid record of
the order is cancelled and its commissionAmount debited from the payee. -/
def reverseCommissions (orderId : Nat) (s : LedgerState) : LedgerState :=
  let commissions := s.commissions.filter (fun c => c.order == orderId)
  if commissions.length = 0 then s
  else commissions.foldl reverseStep s

/-! ## Commission calculator rounding and the delivery-boy settlement
(commissionService: distributeCommissions / calculateOrderCommissions) -/

/-- JavaScript `Math.round`: the nearest integer, ties rounded toward +∞. -/
def jsRound (q : ℚ) : ℚ := ⌊q + 1/2⌋

/-- The expression `Math.round(x * 100) / 100`, the 2-decimal rounding of the source. -/
def round2 (q : ℚ) : ℚ := jsRound (q * 100) / 100

/-- Rounding half away from zero to 2 decimal places, the rule named by the
specification. -/
def halfAwayRound2 (q : ℚ) : ℚ :=
  if 0 ≤ q then ((⌊q * 100 + 1/2⌋ : ℤ) : ℚ) / 100
  else -(((⌊-q * 100 + 1/2⌋ : ℤ) : ℚ) / 100)

/-- The deliveryConfig block of AppSettings. -/
structure DeliveryConfig where
  isDistanceBased : Bool
  deliveryBoyKmRate : Option ℚ
deriving DecidableEq, Repr

/-- The Order fields read by the delivery-boy settlement. -/
structure OrderRec where
  orderId : Nat
  status : String
  subtotal : ℚ
  deliveryDistanceKm : Option ℚ
  deliveryBoy : Option Nat
deriving DecidableEq, Repr

/-- The delivery commission computed by `distributeCommissions` (the same
branch structure as `calculateOrderCommissions`): distance-based when the
settings enable it, a per-km rate is set and nonzero (JS truthiness), and the
order carries a nonzero positive distance; otherwise percentage of the order
subtotal at the delivery boy rate (default 5). Returns
(usedDistanceBased, rate, raw unrounded amount). -/
def deliveryCommissionRaw (cfg : Option DeliveryConfig) (order : OrderRec)
    (deliveryBoyRate : Option ℚ) : Bool × ℚ × ℚ :=
  let distanceCase : Option (ℚ × ℚ) :=
    match cfg with
    | some c =>
      if c.isDistanceBased then
        match c.deliveryBoyKmRate, order.deliveryDistanceKm with
        | some kmRate, some d =>
          if kmRate ≠ 0 ∧ d ≠ 0 ∧ 0 < d then some (kmRate, d * kmRate) else none
        | _, _ => none
      else none
    | none => none
  match distanceCase with
  | some (rate, amount) => (true, rate, amount)
  | none =>
    let rate := deliveryBoyRate.getD 5
    (false, rate, order.subtotal * rate / 100)

/-- Source operation `distributeCommissions(orderId)` restricted to its ledger effect: it only
acts on Delivered orders carrying a delivery boy with no DELIVERY_BOY
commission for the order yet; then it creates one commission record with
status Paid whose commissionAmount is `Math.round(raw * 100) / 100` — the
single point at which the amount is rounded — and credits the delivery boy
wallet with the recorded, already rounded amount. -/
def distributeCommissions (cfg : Option DeliveryConfig) (order : OrderRec)
    (deliveryBoyRate : Option ℚ) (s : LedgerState) : LedgerState :=
  if order.status ≠ "Delivered" then s
  else
    match order.deliveryBoy with
    | none => s
    | some deliveryBoyId =>
      if s.commissions.any (fun c =>
          c.order == order.orderId && c.ctype == CommType.DELIVERY_BOY) then s
      else
        let result := deliveryCommissionRaw cfg order deliveryBoyRate
        let usedDistanceBased := result.1
        let commissionRate := result.2.1
        let rawAmount := result.2.2
        let newComm : CommissionRec :=
          { id := s.commissions.length, order := order.orderId, orderItem := 0,
            payee := deliveryBoyId, ctype := CommType.DELIVERY_BOY,
            orderAmount := if usedDistanceBased then order.deliveryDistanceKm.getD 0
                           else order.subtotal,
            commissionRate := commissionRate,
            commissionAmount := round2 rawAmount,
            status := CommStatus.Paid }
        creditWallet deliveryBoyId CommType.DELIVERY_BOY newComm.commissionAmount
          { s with commissions := s.commissions ++ [newComm] }

/-! ## Commission summary (commissionService: getCommissionSummary) -/

/-- The aggregate part of a commission summary. -/
structure CommissionSummary where
  total : ℚ
  paid : ℚ
  pending : ℚ
  count : Nat
deriving DecidableEq, Repr

/-- The per-record earning of `getCommissionSummary`: for a SELLER query the
order amount minus the commission amount, otherwise the commission amount. -/
def earningAmount (userType : CommType) (c : CommissionRec) : ℚ :=
  if userType = CommType.SELLER then c.orderAmount - c.commissionAmount
  else c.commissionAmount

/-- One iteration of the accumulation loop of `getCommissionSummary`. -/
def summaryStep (userType : CommType) (acc : CommissionSummary)
    (c : CommissionRec) : CommissionSummary :=
  let e := earningAmount userType c
  { acc with
    total := acc.total + e
    paid := if c.status = CommStatus.Paid then acc.paid + e else acc.paid
    pending := if c.status = CommStatus.Paid then acc.pending
               else if c.status = CommStatus.Pending then acc.pending + e
               else acc.pending }

/-- Source operation `getCommissionSummary(userId, userType)`: filter the commission records of
the payee (the query is keyed by the seller or the deliveryBoy field according
to the user type) and accumulate earnings into total / paid / pending. -/
def getCommissionSummary (userId : Nat) (userType : CommType)
    (records : List CommissionRec) : CommissionSummary :=
  let commissions := records.filter (fun c => c.ctype == userType && c.payee == userId)
  commissions.foldl (summaryStep userType)
    { total := 0, paid := 0, pending := 0, count := commissions.length }

/-- The earning formula as the claim words it, dispatched on the payee type. -/
def specEarning (userType : CommType) (c : CommissionRec) : ℚ :=
  match userType with
  | CommType.SELLER => c.orderAmount - c.commissionAmount
  | CommType.DELIVERY_BOY => c.commissionAmount

/-! ## Admin fund transfer (adminWalletController: processFundTransfer) -/

/-- The rejection responses of `processFundTransfer`, in source order. -/
inductive TransferError
  | missingFields
  | nonPositiveAmount
  | fromAccountNotFound
  | insufficientBalance
  | toAccountNotFound
deriving DecidableEq, Repr

/-- Source operation `processFundTransfer`: the balance arithmetic of the admin fund transfer.
The two accounts are the balance cells selected by (fromType, fromId) and
(toType, toId); a missing account is `none`. The JS falsy required-fields
check rejects amount 0 before the positivity check; every rejection happens
before any mutation. -/
def processFundTransfer (fromAccount toAccount : Option ℚ) (amount : ℚ) :
    Except TransferError (ℚ × ℚ) :=
  if amount = 0 then .error .missingFields
  else if amount ≤ 0 then .error .nonPositiveAmount
  else
    match fromAccount with
    | none => .error .fromAccountNotFound
    | some fromBalance =>
      if fromBalance < amount then .error .insufficientBalance
      else
        match toAccount with
        | none => .error .toAccountNotFound
        | some toBalance => .ok (fromBalance - amount, toBalance + amount)

/-- The observable effect of the controller on the two stored balances: every
error return happens before the mutation, so on error both balances keep their
previous values. -/
def runFundTransfer (fromBalance toBalance amount : ℚ) : ℚ × ℚ :=
  match processFundTransfer (some fromBalance) (some toBalance) amount with
  | .ok p => p
  | .error _ => (fromBalance, toBalance)

/-! ## Concrete scenario data -/

/-- The empty ledger: no commission records, no wallet transactions, all
balances 0. -/
def s0 : LedgerState := { commissions := [], txns := [], balance := fun _ => 0 }

/-- Environment of the worked scenarios: seller 1 with individual rate 10%,
seller 2 with individual rate 0, no products or categories configured, no
AppSettings override (the global default falls back to the hard-coded 10). -/
def env1 : Env :=
  { sellers := fun i => if i = 1 then some ⟨some 10⟩
               else if i = 2 then some ⟨some 0⟩ else none
    products := fun _ => none
    categoryRate := fun _ => none
    subCategoryRate := fun _ => none
    globalCommissionRate := none }

/-- Order 1 with one line item of 1000 sold by seller 1. -/
def items1 : List Item :=
  [{ id := 1, order := 1, seller := 1, product := 0, quantity := 1, total := 1000 }]

/-- The two line items of the worked scenario: seller 1 (rate 10%) sells 1000
and seller 2 (rate 0, so the global default applies) sells 500, in order 1. -/
def items2 : List Item :=
  [{ id := 1, order := 1, seller := 1, product := 0, quantity := 1, total := 1000 },
   { id := 2, order := 1, seller := 2, product := 0, quantity := 1, total := 500 }]

/-- Order 1 with one line item of 10.01 sold by seller 1 (rate 10%). -/
def items3 : List Item :=
  [{ id := 1, order := 1, seller := 1, product := 0, quantity := 1, total := 1001/100 }]

/-- A delivered order with subtotal 100, no delivery distance and delivery
boy 7. -/
def order4 : OrderRec :=
  { orderId := 1, status := "Delivered", subtotal := 100,
    deliveryDistanceKm := none, deliveryBoy := some 7 }

/-! # Theorems -/

/-! ## C4 / C9: the transition validator -/

theorem validTransitions_eq_specAllowed (c : String) :
    validTransitions c = specAllowed c := by
  unfold validTransitions specAllowed specTransitionTable
  by_cases h1 : c = "Received"
  · simp [h1, List.lookup]
  by_cases h2 : c = "Pending"
  · simp [h2, List.lookup]
  by_cases h3 : c = "Processed"
  · simp [h3, List.lookup]
  by_cases h4 : c = "Shipped"
  · simp [h4, List.lookup]
  by_cases h5 : c = "Out for Delivery"
  · simp [h5, List.lookup]
  by_cases h6 : c = "Delivered"
  · simp [h6, List.lookup]
  by_cases h7 : c = "Cancelled"
  · simp [h7, List.lookup]
  by_cases h8 : c = "Rejected"
  · simp [h8, List.lookup]
  by_cases h9 : c = "Returned"
  · simp [h9, List.lookup]
  have e1 : (c == "Received") = false := by simp [h1]
  have e2 : (c == "Pending") = false := by simp [h2]
  have e3 : (c == "Processed") = false := by simp [h3]
  have e4 : (c == "Shipped") = false := by simp [h4]
  have e5 : (c == "Out for Delivery") = false := by simp [h5]
  have e6 : (c == "Delivered") = false := by simp [h6]
  have e7 : (c == "Cancelled") = false := by simp [h7]
  have e8 : (c == "Rejected") = false := by simp [h8]
  have e9 : (c == "Returned") = false := by simp [h9]
  simp [List.lookup, h1, h2, h3, h4, h5, h6, h7, h8, h9, e1, e2, e3, e4, e5, e6, e7, e8, e9]

theorem validateStatusTransition_valid_iff (c r : String) :
    (validateStatusTransition c r).valid = true ↔ r ∈ specAllowed c := by
  unfold validateStatusTransition
  rw [validTransitions_eq_specAllowed]
  by_cases h : (specAllowed c).contains r <;>
    simp_all [List.contains_iff_exists_mem_beq, beq_iff_eq]

/-- C4: `validateStatusTransition` accepts exactly the pairs of the transition
table of the specification; a rejected result carries the allowed next states
of the current status in its message; in particular Shipped → Delivered is
rejected and the message lists Out for Delivery, Cancelled, Rejected. -/
theorem C4_validateTransition_table :
    (∀ c r : String, (validateStatusTransition c r).valid = true ↔ r ∈ specAllowed c) ∧
    (∀ c r : String, (validateStatusTransition c r).valid = false →
      (validateStatusTransition c r).message =
        some ("Cannot transition from " ++ c ++ " to " ++ r ++
          ". Valid transitions: " ++ String.intercalate ", " (specAllowed c))) ∧
    validateStatusTransition "Shipped" "Delivered" =
      { valid := false
        message := some ("Cannot transition from Shipped to Delivered. " ++
          "Valid transitions: Out for Delivery, Cancelled, Rejected") } := by
  refine ⟨validateStatusTransition_valid_iff, ?_, by decide⟩
  intro c r hinvalid
  unfold validateStatusTransition at hinvalid ⊢
  rw [validTransitions_eq_specAllowed] at hinvalid ⊢
  by_cases h : (specAllowed c).contains r <;> simp_all

theorem C4_validateTransition_table_witness :
    (validateStatusTransition "Shipped" "Delivered").message =
      some ("Cannot transition from Shipped to Delivered. " ++
        "Valid transitions: Out for Delivery, Cancelled, Rejected") :=
  C4_validateTransition_table.2.1 "Shipped" "Delivered" (by decide)

/-- C9: an unrecognized current status has an empty row in the transition
record, so every requested transition from it is rejected — it behaves like a
terminal state. -/
theorem C9_unknown_status_terminal (c r : String) (h : c ∉ definedStatuses) :
    validTransitions c = [] ∧ (validateStatusTransition c r).valid = false := by
  have hrow : validTransitions c = [] := by
    unfold definedStatuses at h
    simp only [List.mem_cons, List.not_mem_nil, or_false, not_or] at h
    obtain ⟨h1, h2, h3, h4, h5, h6, h7, h8, h9⟩ := h
    unfold validTransitions
    simp [h1, h2, h3, h4, h5, h6, h7, h8, h9]
  refine ⟨hrow, ?_⟩
  unfold validateStatusTransition
  simp [hrow]

theorem C9_unknown_status_terminal_witness :
    "Refunded" ∉ definedStatuses ∧
      (validateStatusTransition "Refunded" "Delivered").valid = false :=
  ⟨by decide, (C9_unknown_status_terminal "Refunded" "Delivered" (by decide)).2⟩

/-! ## C7: the inventory invariant -/

/-- C7 counterexample: the stored availableStock can differ from
max(0, currentStock − reservedStock) after a restore mutation. Starting from a
consistent record (5 in stock, nothing reserved), three reservations of 4 —
the reserve path never checks stock — followed by one restore of 4 leave
availableStock = −3 while max(0, 5 − 8) = 0. -/
theorem C7_invariant_counterexample :
    restoreItem 4 (reserveItem 4 (reserveItem 4 (reserveItem 4 ⟨5, 0, 5⟩))) =
      { currentStock := 5, reservedStock := 8, availableStock := -3 } ∧
    ¬((-3 : Int) = max 0 (5 - 8)) := by
  constructor
  · decide
  · decide

/-- C7 amended: the reserve mutation always re-establishes
availableStock = max(0, currentStock − reservedStock); the restore mutation
stores the unfloored difference currentStock − reservedStock, which equals the
floored value whenever the record was in the steady state of the specification
before the restore (stock nonnegative and reservedStock ≤ currentStock). -/
theorem C7_availableStock_invariant (inv : InventoryRec) (q : Nat) :
    ((reserveItem q inv).availableStock =
      max 0 ((reserveItem q inv).currentStock - (reserveItem q inv).reservedStock)) ∧
    (0 ≤ inv.currentStock → inv.reservedStock ≤ inv.currentStock →
      (restoreItem q inv).availableStock =
        max 0 ((restoreItem q inv).currentStock - (restoreItem q inv).reservedStock)) := by
  constructor
  · rfl
  · intro hcur hle
    unfold restoreItem
    simp only
    rcases max_choice 0 (inv.reservedStock - (q : Int)) with h | h
    · rw [h, sub_zero, max_eq_right hcur]
    · rw [h]
      have hx : (0 : Int) ≤ inv.reservedStock - (q : Int) := h ▸ le_max_left 0 _
      have hy : (0 : Int) ≤ inv.currentStock - (inv.reservedStock - (q : Int)) := by omega
      rw [max_eq_right hy]

theorem C7_availableStock_invariant_witness :
    (0 : Int) ≤ 10 ∧ (3 : Int) ≤ 10 ∧
      (restoreItem 2 ⟨10, 3, 7⟩).availableStock =
        max 0 ((restoreItem 2 ⟨10, 3, 7⟩).currentStock -
          (restoreItem 2 ⟨10, 3, 7⟩).reservedStock) :=
  ⟨by decide, by decide,
    (C7_availableStock_invariant ⟨10, 3, 7⟩ 2).2 (by decide) (by decide)⟩

/-! ## C3: rate resolution priority -/

theorem firstPositive_cons (x : Option ℚ) (rest : List (Option ℚ)) :
    firstPositive (x :: rest) =
      if levelRate x = 0 then firstPositive rest else some (levelRate x) := by
  cases x with
  | none => simp [levelRate, firstPositive]
  | some v =>
    by_cases hv : 0 < v
    · simp [levelRate, firstPositive, hv, ne_of_gt hv]
    · simp [levelRate, firstPositive, hv]

theorem firstPositive_zero_absent (pre post : List (Option ℚ)) :
    firstPositive (pre ++ some 0 :: post) = firstPositive (pre ++ none :: post) := by
  induction pre with
  | nil => simp [firstPositive]
  | cons x rest ih => simp [firstPositive_cons, ih]

/-- C3: the inline five-level resolution of `createPendingCommissions` returns
the first strictly positive rate of the priority chain sub-subcategory →
subcategory → category → seller, falling back to the global default when no
source is positive; and a rate of 0 at any source is interchangeable with an
absent one, so a lower-priority source is never used while a higher-priority
source holds a positive rate. -/
theorem C3_rate_resolution_priority (env : Env) (productId : Nat) (seller : SellerRec) :
    resolveSellerRate env productId seller =
      specResolveRate (rateLevels env productId seller) (env.globalCommissionRate.getD 10) ∧
    ∀ (pre post : List (Option ℚ)) (g : ℚ),
      specResolveRate (pre ++ some 0 :: post) g = specResolveRate (pre ++ none :: post) g := by
  constructor
  · unfold resolveSellerRate rateLevels specResolveRate
    cases hp : env.products productId with
    | none =>
      by_cases h4 : levelRate seller.commission = 0 <;>
        simp [hp, h4, firstPositive_cons, firstPositive]
    | some product =>
      by_cases h1 : levelRate (product.subSubCategory.bind env.categoryRate) = 0 <;>
      by_cases h2 : levelRate (product.subcategory.bind env.subCategoryRate) = 0 <;>
      by_cases h3 : levelRate (product.category.bind env.categoryRate) = 0 <;>
      by_cases h4 : levelRate seller.commission = 0 <;>
        simp [hp, h1, h2, h3, h4, firstPositive_cons, firstPositive]
  · intro pre post g
    unfold specResolveRate
    rw [firstPositive_zero_absent]

/-! ## C5: the two-seller settlement scenario -/

/-- C5 counterexample: in the source, the transition to Delivered invokes
`createCommissions`, which on the scenario order (seller 1: 1000 at rate 10%,
seller 2: 500 at rate 0) creates records with status Pending — not Paid — and
applies no global-default fallback for seller 2, so the commission amounts are
100 and 0 and the credits are 900 and 500, not the claimed 100/50 and
900/450. -/
theorem C5_delivered_transition_counterexample :
    (createCommissions env1 items2 s0).commissions.map
        (fun c => (c.payee, c.commissionAmount, c.status)) =
      [(1, 100, CommStatus.Pending), (2, 0, CommStatus.Pending)] ∧
    (createCommissions env1 items2 s0).txns.map
        (fun t => (t.payee, t.amount, t.ttype)) =
      [(1, 900, TxnType.Credit), (2, 500, TxnType.Credit)] ∧
    (createCommissions env1 items2 s0).commissions.map (fun c => c.status) ≠
      [CommStatus.Paid, CommStatus.Paid] ∧
    (createCommissions env1 items2 s0).txns.map (fun t => t.amount) ≠ [900, 450] := by
  norm_num [createCommissions, addEarning, creditWallet, env1, items2, s0]
  decide

/-- C5 amended: the payment-time settlement path `createPendingCommissions`
realises the scenario exactly as claimed — two commission records with status
Paid of 100 and 50 (seller 2 falling back to the global default 10%), and two
Credit wallet transactions of 900 and 450 to sellers 1 and 2. -/
theorem C5_settlement_scenario :
    (createPendingCommissions env1 1 items2 s0).commissions.map
        (fun c => (c.payee, c.commissionAmount, c.status)) =
      [(1, 100, CommStatus.Paid), (2, 50, CommStatus.Paid)] ∧
    (createPendingCommissions env1 1 items2 s0).txns.map
        (fun t => (t.payee, t.amount, t.ttype)) =
      [(1, 900, TxnType.Credit), (2, 450, TxnType.Credit)] := by
  norm_num [createPendingCommissions, processItem, resolveSellerRate, levelRate,
    creditWallet, env1, items2, s0]

/-! ## C2: settlement idempotency -/

theorem mem_commissions_processItem (env : Env) (s : LedgerState) (item : Item)
    (c : CommissionRec) (h : c ∈ s.commissions) :
    c ∈ (processItem env s item).commissions := by
  unfold processItem
  cases env.sellers item.seller with
  | none => exact h
  | some seller =>
    simp only [creditWallet, List.mem_append]
    exact Or.inl h

theorem mem_commissions_foldl (env : Env) (items : List Item) (s : LedgerState)
    (c : CommissionRec) (h : c ∈ s.commissions) :
    c ∈ (items.foldl (processItem env) s).commissions := by
  induction items generalizing s with
  | nil => exact h
  | cons it rest ih => exact ih _ (mem_commissions_processItem env s it c h)

/-- Either the fold of `createPendingCommissions` touches nothing (every item
was skipped for a missing seller) or it leaves a commission record carrying
the order id of some processed item. -/
theorem foldl_processItem_cases (env : Env) (orderId : Nat) (items : List Item)
    (s : LedgerState) (h : ∀ it ∈ items, it.order = orderId) :
    items.foldl (processItem env) s = s ∨
      ∃ c ∈ (items.foldl (processItem env) s).commissions, c.order = orderId := by
  induction items generalizing s with
  | nil => exact Or.inl rfl
  | cons it rest ih =>
    have hit : it.order = orderId := h it (List.mem_cons_self _ _)
    have hrest : ∀ x ∈ rest, x.order = orderId := fun x hx => h x (List.mem_cons_of_mem _ hx)
    rw [List.foldl_cons]
    cases hsel : env.sellers it.seller with
    | none =>
      have hskip : processItem env s it = s := by
        unfold processItem
        rw [hsel]
      rw [hskip]
      exact ih s hrest
    | some seller =>
      right
      have hmem : ∃ c ∈ (processItem env s it).commissions, c.order = it.order := by
        unfold processItem
        rw [hsel]
        simp only [creditWallet, List.mem_append, List.mem_singleton]
        exact ⟨_, Or.inr rfl, rfl⟩
      obtain ⟨c, hc, hco⟩ := hmem
      exact ⟨c, mem_commissions_foldl env rest _ c hc, hco.trans hit⟩

/-- C2 amended: the `createPendingCommissions` settlement path is idempotent —
it exits as a no-op when commission records already exist for the order, so a
second invocation changes nothing and exactly one set of commission records
and wallet credits remains. (The hypothesis states that the items are those of
the order, which holds by construction in the source, where the items are read
from the order document.) -/
theorem C2_settlement_idempotent (env : Env) (orderId : Nat) (items : List Item)
    (s : LedgerState) (h : ∀ it ∈ items, it.order = orderId) :
    createPendingCommissions env orderId items
        (createPendingCommissions env orderId items s) =
      createPendingCommissions env orderId items s := by
  by_cases hg : 0 < (s.commissions.filter (fun c => c.order == orderId)).length
  · have h1 : createPendingCommissions env orderId items s = s := by
      unfold createPendingCommissions
      simp [hg]
    rw [h1]
    exact h1
  · have h1 : createPendingCommissions env orderId items s =
        items.foldl (processItem env) s := by
      unfold createPendingCommissions
      simp [hg]
    rw [h1]
    rcases foldl_processItem_cases env orderId items s h with heq | ⟨c, hc, hco⟩
    · rw [heq]
      exact h1.trans heq
    · have hpos : 0 < ((items.foldl (processItem env) s).commissions.filter
          (fun c => c.order == orderId)).length :=
        List.length_pos_of_mem (List.mem_filter.mpr ⟨hc, by simp [hco]⟩)
      unfold createPendingCommissions
      simp [hpos]

theorem C2_settlement_idempotent_witness :
    (∀ it ∈ items1, it.order = 1) ∧
      createPendingCommissions env1 1 items1 (createPendingCommissions env1 1 items1 s0) =
        createPendingCommissions env1 1 items1 s0 :=
  ⟨by decide, C2_settlement_idempotent env1 1 items1 s0 (by decide)⟩

/-- C2 counterexample: the Delivered-transition settlement path
`createCommissions` makes no existing-records check, so invoking it a second
time after it has already created the commission records duplicates records
and wallet credits instead of leaving exactly one set. -/
theorem C2_delivered_path_not_idempotent :
    (createCommissions env1 items1 s0).commissions.length = 1 ∧
    (createCommissions env1 items1 (createCommissions env1 items1 s0)).commissions.length = 2 ∧
    (createCommissions env1 items1 (createCommissions env1 items1 s0)).txns.length = 2 := by
  norm_num [createCommissions, addEarning, creditWallet, env1, items1, s0]

/-! ## C1: reversal of a settled order -/

/-- C1: settling order 1 (one item of 1000, seller rate 10%) credits the
seller 900 = netEarning and records a Paid commission of 100; reversing flips
the record to Cancelled but debits the commissionAmount 100, not the credited
900, leaving the seller balance at 800 instead of the pre-settlement 0 — the
reversal does not offset the settlement credit. -/
theorem C1_reversal_leaves_residual :
    (createPendingCommissions env1 1 items1 s0).commissions.map
        (fun c => (c.commissionAmount, c.status)) = [(100, CommStatus.Paid)] ∧
    (createPendingCommissions env1 1 items1 s0).balance 1 = 900 ∧
    (reverseCommissions 1 (createPendingCommissions env1 1 items1 s0)).commissions.map
        (fun c => c.status) = [CommStatus.Cancelled] ∧
    (reverseCommissions 1 (createPendingCommissions env1 1 items1 s0)).txns.map
        (fun t => (t.ttype, t.amount)) = [(TxnType.Credit, 900), (TxnType.Debit, 100)] ∧
    (reverseCommissions 1 (createPendingCommissions env1 1 items1 s0)).balance 1 = 800 ∧
    (800 : ℚ) ≠ 0 := by
  norm_num [createPendingCommissions, processItem, resolveSellerRate, levelRate,
    creditWallet, debitWallet, reverseCommissions, reverseStep, env1, items1, s0]

/-! ## C6: monetary rounding -/

/-- C6 counterexample: the seller settlement path persists the raw quotient
with no rounding — an item of 10.01 at rate 10% persists a commissionAmount of
1.001, which is not a 2-decimal value (its 2-decimal rounding is 1). -/
theorem C6_seller_amount_not_rounded :
    (createPendingCommissions env1 1 items3 s0).commissions.map
        (fun c => c.commissionAmount) = [1001/1000] ∧
    round2 (1001/1000) = 1 ∧ ((1001/1000 : ℚ) ≠ 1) := by
  refine ⟨?_, ?_, by norm_num⟩
  · norm_num [createPendingCommissions, processItem, resolveSellerRate, levelRate,
      creditWallet, env1, items3, s0]
  · norm_num [round2, jsRound, Int.floor_eq_iff]

/-- C6 amended: on the delivery-boy settlement path the commission amount is
rounded exactly once, at the point of persistence — the persisted record holds
`round2` of the raw amount and the wallet credit reuses the persisted value
unchanged, never re-rounding — and on nonnegative amounts the JS
`Math.round`-based rounding agrees with round-half-away-from-zero. The
seller-path amounts are persisted unrounded (see the counterexample). -/
theorem C6_delivery_rounding_once (cfg : Option DeliveryConfig) (order : OrderRec)
    (deliveryBoyRate : Option ℚ) (s : LedgerState) (deliveryBoyId : Nat)
    (hst : order.status = "Delivered") (hdb : order.deliveryBoy = some deliveryBoyId)
    (hnew : s.commissions.any (fun c =>
      c.order == order.orderId && c.ctype == CommType.DELIVERY_BOY) = false) :
    ((distributeCommissions cfg order deliveryBoyRate s).commissions.map
        (fun c => c.commissionAmount) =
      s.commissions.map (fun c => c.commissionAmount) ++
        [round2 (deliveryCommissionRaw cfg order deliveryBoyRate).2.2]) ∧
    ((distributeCommissions cfg order deliveryBoyRate s).txns.map (fun t => t.amount) =
      s.txns.map (fun t => t.amount) ++
        [round2 (deliveryCommissionRaw cfg order deliveryBoyRate).2.2]) ∧
    (∀ q : ℚ, 0 ≤ q → round2 q = halfAwayRound2 q) := by
  refine ⟨?_, ?_, ?_⟩
  · unfold distributeCommissions
    simp [hst, hdb, hnew, creditWallet]
  · unfold distributeCommissions
    simp [hst, hdb, hnew, creditWallet]
  · intro q hq
    unfold round2 jsRound halfAwayRound2
    rw [if_pos hq]

theorem C6_delivery_rounding_once_witness :
    (distributeCommissions none order4 (some 5) s0).commissions.map
        (fun c => c.commissionAmount) =
      s0.commissions.map (fun c => c.commissionAmount) ++
        [round2 (deliveryCommissionRaw none order4 (some 5)).2.2] :=
  (C6_delivery_rounding_once none order4 (some 5) s0 7 rfl rfl rfl).1

/-! ## C8: the commission summary -/

theorem earningAmount_eq_specEarning (userType : CommType) (c : CommissionRec) :
    earningAmount userType c = specEarning userType c := by
  cases userType <;> simp [earningAmount, specEarning]

/-- Unfolding the accumulation loop of `getCommissionSummary`: the fold adds
the sum of earnings to the total, the sum over Paid records to the paid bucket
and the sum over Pending records to the pending bucket. -/
theorem summary_foldl (userType : CommType) (l : List CommissionRec)
    (acc : CommissionSummary) :
    l.foldl (summaryStep userType) acc =
      { total := acc.total + (l.map (specEarning userType)).sum
        paid := acc.paid + ((l.filter (fun c => c.status == CommStatus.Paid)).map
          (specEarning userType)).sum
        pending := acc.pending + ((l.filter (fun c => c.status == CommStatus.Pending)).map
          (specEarning userType)).sum
        count := acc.count } := by
  induction l generalizing acc with
  | nil => simp
  | cons c rest ih =>
    rw [List.foldl_cons, ih]
    cases hs : c.status <;>
      simp [summaryStep, hs, earningAmount_eq_specEarning, add_assoc]

/-- C8: for every payee and record set, the summary counts the matching
records and accumulates per-record earnings — orderAmount − commissionAmount
for a seller query, commissionAmount itself for a delivery-boy query — into
the total bucket, and into the paid / pending buckets according to the record
status. -/
theorem C8_commission_summary (userId : Nat) (userType : CommType)
    (records : List CommissionRec) :
    getCommissionSummary userId userType records =
      { total := ((records.filter (fun c => c.ctype == userType && c.payee == userId)).map
          (specEarning userType)).sum
        paid := (((records.filter (fun c => c.ctype == userType && c.payee == userId)).filter
          (fun c => c.status == CommStatus.Paid)).map (specEarning userType)).sum
        pending := (((records.filter (fun c => c.ctype == userType && c.payee == userId)).filter
          (fun c => c.status == CommStatus.Pending)).map (specEarning userType)).sum
        count := (records.filter (fun c => c.ctype == userType && c.payee == userId)).length } := by
  unfold getCommissionSummary
  rw [summary_foldl]
  simp

/-! ## C10: the admin fund transfer -/

/-- C10: with both accounts present and a positive amount not exceeding the
source balance, the transfer moves exactly the amount from source to
destination and conserves the sum of the two balances; with the source balance
below the amount it fails with the insufficient-balance error before any
mutation, leaving both balances unchanged. -/
theorem C10_fund_transfer_conservation (f t a : ℚ) :
    (0 < a → a ≤ f →
      processFundTransfer (some f) (some t) a = .ok (f - a, t + a) ∧
      runFundTransfer f t a = (f - a, t + a) ∧
      (f - a) + (t + a) = f + t) ∧
    (0 < a → f < a →
      processFundTransfer (some f) (some t) a = .error .insufficientBalance ∧
      runFundTransfer f t a = (f, t)) := by
  constructor
  · intro ha hf
    have h0 : ¬ a = 0 := ne_of_gt ha
    have h1 : ¬ a ≤ 0 := not_le.mpr ha
    have h2 : ¬ f < a := not_lt.mpr hf
    refine ⟨?_, ?_, by ring⟩
    · unfold processFundTransfer
      simp [h0, h1, h2]
    · unfold runFundTransfer processFundTransfer
      simp [h0, h1, h2]
  · intro ha hf
    have h0 : ¬ a = 0 := ne_of_gt ha
    have h1 : ¬ a ≤ 0 := not_le.mpr ha
    constructor
    · unfold processFundTransfer
      simp [h0, h1, hf]
    · unfold runFundTransfer processFundTransfer
      simp [h0, h1, hf]

theorem C10_fund_transfer_conservation_witness :
    (processFundTransfer (some 10) (some 4) 3 = .ok (10 - 3, 4 + 3) ∧
      runFundTransfer 10 4 3 = (10 - 3, 4 + 3) ∧ (10 - 3 : ℚ) + (4 + 3) = 10 + 4) ∧
    (processFundTransfer (some 2) (some 4) 3 = .error .insufficientBalance ∧
      runFundTransfer 2 4 3 = (2, 4)) :=
  ⟨(C10_fund_transfer_conservation 10 4 3).1 (by norm_num) (by norm_num),
   (C10_fund_transfer_conservation 2 4 3).2 (by norm_num) (by norm_num)⟩

end Kosil
